import Mathlib

/-!
Verification of the LinkedIn scraping engine of this repository
(`src/scraper/linkedin_scraper.py`): the extraction pipeline, the session
driver's authentication entry points, the account ledger
(`MultiAccountScraper._get_available_account`) and the scrape coordinator
(`MultiAccountScraper.scrape_profiles`).

The Python code is shallowly embedded: pure page-to-record transforms become
Lean functions over already-extracted raw page items; the stateful coordinator
becomes explicit state passing over `MState`, with the outside world (browser
navigation results, login outcomes, delays) supplied by a deterministic
oracle `Env`.  Timestamps are integer seconds (`datetime.utcnow` values);
`minutes_since_use >= cooldown_minutes` over real-valued minutes is the exact
condition `now - last_used >= cooldown_minutes * 60` over seconds.
-/

/-! ## String helpers

Python's `"pat" in s` substring test and `str.split('\n')[0].strip()`,
modelled directly over `List Char` so that everything reduces in the kernel.
-/

/-- Does the pattern match at the head of the character list? -/
def leadMatch : List Char → List Char → Bool
  | [], _ => true
  | _ :: _, [] => false
  | p :: ps, c :: cs => p == c && leadMatch ps cs

/-- Does the pattern occur anywhere inside the character list? -/
def hasSub (pat : List Char) : List Char → Bool
  | [] => leadMatch pat []
  | c :: cs => leadMatch pat (c :: cs) || hasSub pat cs

/-- Python's `pat in s` substring containment on strings. -/
def strContains (s pat : String) : Bool :=
  hasSub pat.toList s.toList

/-- Whitespace characters stripped by Python's `str.strip()`. -/
def isSpaceChar (c : Char) : Bool :=
  c == ' ' || c == '\t' || c == '\n' || c == '\r' || c == '\x0b' || c == '\x0c'

/-- Strip leading and trailing whitespace from a character list. -/
def trimChars (cs : List Char) : List Char :=
  ((cs.dropWhile isSpaceChar).reverse.dropWhile isSpaceChar).reverse

/-- Python's `text.split('\n')[0].strip()` used on extracted job titles. -/
def firstLineTrim (s : String) : String :=
  String.mk (trimChars (s.toList.takeWhile (· ≠ '\n')))

/-- Python truthiness of an optional string: present and non-empty. -/
def truthyOpt : Option String → Bool
  | some s => !s.toList.isEmpty
  | none => false

/-! ## Extraction pipeline (`LinkedInScraper._extract_experience`,
`_extract_education`, and the current-position inference in
`_extract_profile_data`)

A raw page item carries the optional texts the selectors would return
(`query_selector` returning no element gives `none`); per-item extraction in
the source has no other failure mode that is not already an absent field.
-/

/-- One raw experience list item as found on the page: the optional company
text, title text and date-range text that the selectors yield. -/
structure RawExp where
  company : Option String
  title : Option String
  dateRange : Option String
deriving DecidableEq, Repr

/-- One extracted experience entry (the `job` dict of the source). -/
structure Job where
  order_index : Nat
  company_name : Option String
  job_title : Option String
  date_range : Option String
  is_current : Option Bool
deriving DecidableEq, Repr

/-- Build the `job` dict for the item at (zero-based) raw index `i`:
company as found, title first-line-stripped, and `is_current` set only when a
date range was found, as `'Present' in date_text`. -/
def extract_exp_item (i : Nat) (it : RawExp) : Job :=
  { order_index := i
    company_name := it.company
    job_title := it.title.map firstLineTrim
    date_range := it.dateRange
    is_current := it.dateRange.map (fun d => strContains d "Present") }

/-- The source keeps a job only when `job.get('company_name') or
job.get('job_title')` is truthy. -/
def includeJob (j : Job) : Bool :=
  truthyOpt j.company_name || truthyOpt j.job_title

/-- Whether a raw item survives the inclusion check after extraction. -/
def rawIncludable (it : RawExp) : Bool :=
  truthyOpt it.company || truthyOpt (it.title.map firstLineTrim)

/-- `LinkedInScraper._extract_experience`: enumerate the first 10 page items,
extract each, and keep those with a truthy company or title. -/
def extract_experience (items : List RawExp) : List Job :=
  ((items.take 10).enum.map (fun p => extract_exp_item p.1 p.2)).filter includeJob

/-- One raw education list item: optional institution and degree texts. -/
structure RawEdu where
  institution : Option String
  degree : Option String
deriving DecidableEq, Repr

/-- One extracted education entry (the `edu` dict of the source). -/
structure Edu where
  institution_name : Option String
  degree : Option String
deriving DecidableEq, Repr

/-- Build the `edu` dict for one raw item. -/
def extract_edu_item (it : RawEdu) : Edu :=
  { institution_name := it.institution, degree := it.degree }

/-- `LinkedInScraper._extract_education`: empty when the education section is
absent; otherwise the first 5 items, kept only with a truthy institution. -/
def extract_education (sectionPresent : Bool) (items : List RawEdu) : List Edu :=
  if sectionPresent then
    ((items.take 5).map extract_edu_item).filter (fun e => truthyOpt e.institution_name)
  else []

/-- The current-position inference of `_extract_profile_data`: read
`experience[0]` when the list is non-empty and `current_job.get('is_current',
True)` is truthy; return the optional `(current_company,
current_designation)` pair. -/
def current_from_experience (exps : List Job) : Option String × Option String :=
  match exps with
  | [] => (none, none)
  | j :: _ => if j.is_current.getD true then (j.company_name, j.job_title) else (none, none)

/-! ## Session driver authentication (`LinkedInScraper.login`,
`LinkedInScraper.login_with_cookies`)

The browser interaction is abstracted to its observable outcome: either an
exception was raised somewhere in the attempt (caught by the source's
`except` clause), or the navigation landed on a final URL (with, for
credential login, the context's cookies available on success).
-/

/-- A session cookie (name/value pair; the remaining fields of the
serialized cookie dicts play no role in the embedded logic). -/
structure Cookie where
  name : String
  value : String
deriving DecidableEq, Repr

/-- Outcome of the credential-login browser interaction: an exception, or a
landing URL together with the cookies the context would report. -/
inductive LoginNav where
  | raised
  | landed (url : String) (cookies : List Cookie)
deriving DecidableEq, Repr

/-- `LinkedInScraper.login`: success with cookies when the landing URL
mentions `feed` or `mynetwork`; `(False, [])` when it mentions `checkpoint`
or `challenge` (security checkpoint) and equally `(False, [])` on any other
URL or on an exception. -/
def login (nav : LoginNav) : Bool × List Cookie :=
  match nav with
  | .raised => (false, [])
  | .landed url cookies =>
    if strContains url "feed" || strContains url "mynetwork" then (true, cookies)
    else if strContains url "checkpoint" || strContains url "challenge" then (false, [])
    else (false, [])

/-- Outcome of the cookie-replay navigation to the feed page. -/
inductive CookieNav where
  | raised
  | landed (url : String)
deriving DecidableEq, Repr

/-- `LinkedInScraper.login_with_cookies`: true exactly when the verification
navigation lands on a URL containing `feed`; every exception is caught and
turned into `False`. -/
def login_with_cookies (nav : CookieNav) : Bool :=
  match nav with
  | .raised => false
  | .landed url => strContains url "feed"

/-! ## Account ledger (`MultiAccountScraper._get_available_account` and the
usage bookkeeping of `scrape_profiles`)

`account_usage` is the dict built in `MultiAccountScraper.__init__`, embedded
as a total function from emails to usage records (only emails of configured
accounts are ever looked up).
-/

/-- One configured account (`{'email': ..., 'password': ...}`). -/
structure Account where
  email : String
  password : String
deriving DecidableEq, Repr

/-- The per-account usage record of `account_usage`. -/
structure Usage where
  profiles_scraped : Nat
  last_used : Option Int
  is_available : Bool
deriving DecidableEq, Repr

/-- The usage record every account starts with. -/
def initUsage : Usage :=
  { profiles_scraped := 0, last_used := none, is_available := true }

/-- `MultiAccountScraper._get_available_account`, scanning the configured
accounts in order.  For each account: skip it when it is both on cooldown and
at the cap; otherwise reset its counter when the cooldown has elapsed
(a mutation of the usage map); finally return it when its (possibly reset)
counter is under the cap and its availability flag is set.  Returns the
selected account, if any, together with the mutated usage map. -/
def get_available_account (mp cd : Nat) (now : Int) :
    List Account → (String → Usage) → Option Account × (String → Usage)
  | [], u => (none, u)
  | a :: rest, u =>
    let g := u a.email
    match g.last_used with
    | some t =>
      if now - t < (cd * 60 : Int) ∧ mp ≤ g.profiles_scraped then
        get_available_account mp cd now rest u
      else if (cd * 60 : Int) ≤ now - t then
        let g' := { g with profiles_scraped := 0 }
        let u' := fun x => if x = a.email then g' else u x
        if g'.profiles_scraped < mp ∧ g'.is_available = true then (some a, u')
        else get_available_account mp cd now rest u'
      else
        if g.profiles_scraped < mp ∧ g.is_available = true then (some a, u)
        else get_available_account mp cd now rest u
    | none =>
      if g.profiles_scraped < mp ∧ g.is_available = true then (some a, u)
      else get_available_account mp cd now rest u

/-- The cooldown reset applied to a usage record when it is examined:
the counter drops to zero exactly when the cooldown has elapsed. -/
def postReset (cd : Nat) (now : Int) (g : Usage) : Usage :=
  match g.last_used with
  | some t => if (cd * 60 : Int) ≤ now - t then { g with profiles_scraped := 0 } else g
  | none => g

/-- The account-selection policy stated the way the (amended) specification
reads: scan accounts in configuration order; every examined account first has
the cooldown reset applied to its usage record (a side effect of examination,
recorded in the returned map); the first account whose post-reset counter is
under the cap and whose availability flag is set is selected. -/
def next_available_spec (mp cd : Nat) (now : Int) :
    List Account → (String → Usage) → Option Account × (String → Usage)
  | [], u => (none, u)
  | a :: rest, u =>
    let g := postReset cd now (u a.email)
    let u' := fun x => if x = a.email then g else u x
    if g.profiles_scraped < mp ∧ g.is_available = true then (some a, u')
    else next_available_spec mp cd now rest u'

/-- The usage-map mutation performed after each scrape attempt
(`profiles_scraped += 1; last_used = utcnow()`). -/
def recordSuccess (u : String → Usage) (e : String) (now : Int) : String → Usage :=
  fun x =>
    if x = e then
      { u e with profiles_scraped := (u e).profiles_scraped + 1, last_used := some now }
    else u x

/-- The usage-map mutation on a failed account initialization
(`is_available = False`). -/
def setUnavailable (u : String → Usage) (e : String) : String → Usage :=
  fun x => if x = e then { u e with is_available := false } else u x

/-! ## Scrape coordinator (`MultiAccountScraper.scrape_profiles`)

`MState` is the mutable state of a `MultiAccountScraper` object, instrumented
with a driver ledger: `driversStarted` counts the `LinkedInScraper` instances
created and started so far (each gets the next id), `stopLog` records the ids
on which `stop()` was called, and `aborted` is ghost state recording whether
the current run hit the no-account `break`.  `Env` resolves everything the
outside world decides during target iteration `i`: whether
`initialize_account` succeeds (cookie or credential path), the scrape result
fields, and the durations of the awaits.
-/

/-- The coordinator configuration (`MultiAccountScraper.__init__` arguments;
the cookie directory plays no role in the embedded logic). -/
structure MConfig where
  accounts : List Account
  max_profiles_per_account : Nat
  cooldown_minutes : Nat

/-- The mutable coordinator state. -/
structure MState where
  usage : String → Usage
  current_account : Option String
  current_scraper : Option Nat
  driversStarted : Nat
  stopLog : List Nat
  now : Int
  aborted : Bool

/-- The state of a freshly constructed `MultiAccountScraper` at time `now0`. -/
def mkState (now0 : Int) : MState :=
  { usage := fun _ => initUsage, current_account := none, current_scraper := none,
    driversStarted := 0, stopLog := [], now := now0, aborted := false }

/-- The outside world's decisions during target iteration `i`. -/
structure Env where
  initOutcome : Nat → Bool
  initTime : Nat → Int
  scrapeSuccess : Nat → Bool
  scrapeError : Nat → Option String
  scrapeTime : Nat → Int
  paceTime : Nat → Int

/-- One scrape result, as built by `LinkedInScraper.scrape_profile` (the
extracted data payload is modelled separately by the extraction pipeline). -/
structure ScrapeResult where
  linkedin_url : String
  scraped_at : Int
  success : Bool
  error : Option String
deriving DecidableEq, Repr

/-- Call `stop()` on the current scraper, if any (the driver itself stays
referenced, exactly as in the source's final cleanup). -/
def stopCurrent (s : MState) : MState :=
  match s.current_scraper with
  | some d => { s with stopLog := d :: s.stopLog }
  | none => s

/-- What the per-target account-acquisition phase decided: abort the run
(`break`), skip this target (`continue`), or proceed to scrape it. -/
inductive StepDecision where
  | abortRun (s : MState)
  | skipTarget (s : MState)
  | doScrape (s : MState)

/-- The coordinator state carried by a step decision. -/
def stepState : StepDecision → MState
  | .abortRun s => s
  | .skipTarget s => s
  | .doScrape s => s

/-- `MultiAccountScraper.initialize_account` as seen by the coordinator: a
fresh `LinkedInScraper` is created and started (becoming the current scraper,
silently replacing any previous one), time passes, and on failure the account
is deactivated and the target skipped. -/
def init_account (env : Env) (i : Nat) (s : MState) (a : Account) : StepDecision :=
  let d := s.driversStarted
  let s' := { s with driversStarted := d + 1, current_scraper := some d,
                     now := s.now + env.initTime i }
  if env.initOutcome i then .doScrape { s' with current_account := some a.email }
  else .skipTarget { s' with usage := setUnavailable s'.usage a.email }

/-- The `if not self.current_account:` block of the loop body: ask the
ledger once; when it has nothing, sleep for the cooldown and ask exactly once
more; then either abort (`break`) or initialize the chosen account. -/
def selectAndInit (cfg : MConfig) (env : Env) (i : Nat) (s : MState) : StepDecision :=
  let mp := cfg.max_profiles_per_account
  let cd := cfg.cooldown_minutes
  let p1 := get_available_account mp cd s.now cfg.accounts s.usage
  let acquired :=
    match p1.1 with
    | some a => (some a, { s with usage := p1.2 })
    | none =>
      let now2 := s.now + (cd * 60 : Int)
      let p2 := get_available_account mp cd now2 cfg.accounts p1.2
      (p2.1, { s with usage := p2.2, now := now2 })
  match acquired.1 with
  | none => .abortRun acquired.2
  | some a => init_account env i acquired.2 a

/-- The head of the per-target loop body: switch away from an exhausted
current account (stopping its scraper), and when no account is current run
the selection/initialization block, otherwise proceed to scrape with the
current one. -/
def acquireAccount (cfg : MConfig) (env : Env) (i : Nat) (s : MState) : StepDecision :=
  let s1 :=
    match s.current_account with
    | some e =>
      if cfg.max_profiles_per_account ≤ (s.usage e).profiles_scraped then
        { stopCurrent s with current_scraper := none, current_account := none }
      else s
    | none => s
  match s1.current_account with
  | some _ => .doScrape s1
  | none => selectAndInit cfg env i s1

/-- The per-target loop of `MultiAccountScraper.scrape_profiles`, from target
index `i` on: acquire an account (abort / skip / proceed), scrape the target,
record the attempt against the ledger, pace, and recurse; on loop exit (list
exhausted or abort) stop the current scraper. -/
def runLoop (cfg : MConfig) (env : Env) :
    List String → Nat → MState → List ScrapeResult × MState
  | [], _, s => ([], stopCurrent s)
  | url :: rest, i, s =>
    match acquireAccount cfg env i s with
    | .abortRun s' => ([], stopCurrent { s' with aborted := true })
    | .skipTarget s' => runLoop cfg env rest (i + 1) s'
    | .doScrape s' =>
      let res : ScrapeResult :=
        { linkedin_url := url, scraped_at := s'.now,
          success := env.scrapeSuccess i, error := env.scrapeError i }
      let sA := { s' with now := s'.now + env.scrapeTime i }
      let sB :=
        match sA.current_account with
        | some e => { sA with usage := recordSuccess sA.usage e sA.now }
        | none => sA
      let sC := { sB with now := sB.now + env.paceTime i }
      let p := runLoop cfg env rest (i + 1) sC
      (res :: p.1, p.2)

/-- `MultiAccountScraper.scrape_profiles` (the `aborted` ghost flag is
cleared at entry so that it reports on this run). -/
def scrape_profiles (cfg : MConfig) (env : Env) (urls : List String) (s : MState) :
    List ScrapeResult × MState :=
  runLoop cfg env urls 0 { s with aborted := false }

/-! ## Concrete instances used by witnesses and counterexamples -/

/-- Two configured accounts with the default limits. -/
def cfgAB : MConfig :=
  { accounts := [⟨"a", "pa"⟩, ⟨"b", "pb"⟩],
    max_profiles_per_account := 50, cooldown_minutes := 30 }

/-- One configured account with the default limits. -/
def cfgA : MConfig :=
  { accounts := [⟨"a", "pa"⟩],
    max_profiles_per_account := 50, cooldown_minutes := 30 }

/-- A world in which the first attempted account initialization fails and
every later one succeeds, and every scrape succeeds. -/
def envInitFail : Env :=
  { initOutcome := fun i => !(i == 0), initTime := fun _ => 1,
    scrapeSuccess := fun _ => true, scrapeError := fun _ => none,
    scrapeTime := fun _ => 2, paceTime := fun _ => 7 }

/-- A world in which every account initialization succeeds and every scrape
fails (for example, every profile page is missing). -/
def envScrapeFail : Env :=
  { initOutcome := fun _ => true, initTime := fun _ => 1,
    scrapeSuccess := fun _ => false, scrapeError := fun _ => some "Profile not found",
    scrapeTime := fun _ => 2, paceTime := fun _ => 7 }

/-- A world in which everything succeeds. -/
def envAllOk : Env :=
  { initOutcome := fun _ => true, initTime := fun _ => 1,
    scrapeSuccess := fun _ => true, scrapeError := fun _ => none,
    scrapeTime := fun _ => 2, paceTime := fun _ => 7 }

/-- A usage map in which every account has been deactivated (for example,
after credential failures) but no account ever reached the cap. -/
def uDeact : String → Usage :=
  fun _ => { profiles_scraped := 0, last_used := none, is_available := false }

/-- A coordinator state holding a live (started, never stopped) driver, as
left behind by a direct `initialize_account` call. -/
def sLive : MState :=
  { mkState 0 with current_scraper := some 0, driversStarted := 1 }

/-- A coordinator state in which every account has been deactivated. -/
def sDeact : MState :=
  { mkState 0 with usage := uDeact }

/-- Raw experience item A: open-ended date range (current position). -/
def rawA : RawExp := ⟨some "Acme", some "Boss", some "Jan 2020 - Present"⟩

/-- Raw experience item B: closed date range. -/
def rawB : RawExp := ⟨some "BCorp", some "Dev", some "2018 - 2020"⟩

/-- Raw experience item C: no date element on the page. -/
def rawC : RawExp := ⟨some "CCo", none, none⟩

/-- A raw page whose middle experience item has no company and no title, so
that it is skipped by extraction. -/
def itemsGap : List RawExp :=
  [⟨some "A", none, none⟩, ⟨none, none, some "2019 - 2021"⟩, ⟨some "C", none, none⟩]

/-- The driver-ledger invariant maintained by the coordinator between target
iterations as long as no failed initialization has leaked a driver: every
started driver other than the current one has been stopped exactly once, the
current one not yet, ids are allocated in order, and a driver is only held
while its account is current. -/
def DriverInv (s : MState) : Prop :=
  (∀ d, d < s.driversStarted →
    s.stopLog.count d = (if s.current_scraper = some d then 0 else 1)) ∧
  (∀ d, s.driversStarted ≤ d → s.stopLog.count d = 0) ∧
  (∀ d, s.current_scraper = some d → d < s.driversStarted) ∧
  (s.current_account = none → s.current_scraper = none)

/-! ## Lemmas about the account ledger -/

/-- Writing an unchanged entry back into a usage map is the identity. -/
lemma update_self (u : String → Usage) (e : String) :
    (fun x => if x = e then u e else u x) = u := by
  funext x
  split
  · next h => rw [h]
  · rfl

/-- The source's `_get_available_account` coincides with the clean statement
of the selection policy: scan in configuration order, apply the cooldown
reset to every examined account, select on post-reset counter and
availability flag. -/
lemma get_available_account_eq_spec (mp cd : Nat) (now : Int) :
    ∀ (l : List Account) (u : String → Usage),
      get_available_account mp cd now l u = next_available_spec mp cd now l u := by
  intro l
  induction l with
  | nil => intro u; rfl
  | cons a rest ih =>
    intro u
    simp only [get_available_account, next_available_spec]
    cases hl : (u a.email).last_used with
    | none =>
      simp only [postReset, hl, update_self]
      split
      · rfl
      · exact ih u
    | some t =>
      by_cases hc : now - t < (cd * 60 : Int) ∧ mp ≤ (u a.email).profiles_scraped
      · have hr : ¬ ((cd * 60 : Int) ≤ now - t) := by omega
        simp only [postReset, hl, if_pos hc, if_neg hr, update_self]
        have hcap : ¬ ((u a.email).profiles_scraped < mp ∧ (u a.email).is_available = true) := by
          intro h
          omega
        rw [if_neg hcap]
        exact ih u
      · by_cases hr : (cd * 60 : Int) ≤ now - t
        · simp only [postReset, hl, if_neg hc, if_pos hr]
          split
          · rfl
          · exact ih _
        · have hlt : now - t < (cd * 60 : Int) := by omega
          have hcap : (u a.email).profiles_scraped < mp := by
            by_contra hge
            exact hc ⟨hlt, by omega⟩
          simp only [postReset, hl, if_neg hc, if_neg hr, update_self]
          split
          · rfl
          · exact ih u

/-! ## Claim C2 -/

/-- Claim C2 is false as stated: the account below has never hit the
per-window cap (its counter is 0), so by the claim it is a candidate and, as
the first account in order, must be returned — yet `_get_available_account`
returns none, because candidacy additionally requires the `is_available`
flag, which the claim omits. -/
theorem c2_counterexample :
    (uDeact "a").profiles_scraped = 0 ∧
    (get_available_account 50 30 0 [⟨"a", "p"⟩] uDeact).1 = none :=
  ⟨rfl, rfl⟩

/-- Claim C2 amended: `_get_available_account` iterates accounts in fixed
configuration order; every examined account whose cooldown has elapsed has
its usage counter reset to zero as a side effect of being examined (not only
of being selected); an account is a candidate exactly when, after this
reset, its counter is below the per-window cap AND its availability flag is
still set; the first candidate in order is returned, and none is returned
when no account qualifies.  Formally, the source function coincides with
`next_available_spec`, which is that policy by construction. -/
theorem c2_amended (mp cd : Nat) (now : Int) (l : List Account) (u : String → Usage) :
    get_available_account mp cd now l u = next_available_spec mp cd now l u :=
  get_available_account_eq_spec mp cd now l u

/-! ## Claim C8 -/

/-- Claim C8 confirmed: `login_with_cookies` turns a caught exception into
`False`, returns `False` whenever the landing URL does not indicate an
authenticated session (no `feed` in it) — an expected, non-exceptional
outcome — and returns `True` only when the landing URL does. -/
theorem c8_confirmed :
    login_with_cookies .raised = false ∧
    (∀ url, strContains url "feed" = false → login_with_cookies (.landed url) = false) ∧
    (∀ nav, login_with_cookies nav = true →
      ∃ url, nav = .landed url ∧ strContains url "feed" = true) := by
  refine ⟨rfl, ?_, ?_⟩
  · intro url h
    simpa [login_with_cookies] using h
  · intro nav h
    cases nav with
    | raised => simp [login_with_cookies] at h
    | landed url => exact ⟨url, rfl, h⟩

/-- Witness for C8 at a concrete non-authenticated landing URL. -/
theorem c8_witness :
    strContains "https://www.linkedin.com/login" "feed" = false ∧
    login_with_cookies (.landed "https://www.linkedin.com/login") = false :=
  ⟨by decide, c8_confirmed.2.1 "https://www.linkedin.com/login" (by decide)⟩

/-! ## Lemmas about availability flags -/

/-- The cooldown reset never changes the availability flag. -/
lemma postReset_avail (cd : Nat) (now : Int) (g : Usage) :
    (postReset cd now g).is_available = g.is_available := by
  obtain ⟨p, lu, av⟩ := g
  cases lu
  · simp [postReset]
  · simp only [postReset]
    split <;> rfl

/-- Scanning the ledger never changes any availability flag. -/
lemma next_available_spec_avail (mp cd : Nat) (now : Int) :
    ∀ (l : List Account) (u : String → Usage) (x : String),
      (((next_available_spec mp cd now l u).2) x).is_available = (u x).is_available := by
  intro l
  induction l with
  | nil => intro u x; rfl
  | cons a rest ih =>
    intro u x
    simp only [next_available_spec]
    split
    · show (if x = a.email then postReset cd now (u a.email) else u x).is_available = _
      split
      · next hx => rw [hx, postReset_avail]
      · rfl
    · rw [ih]
      show (if x = a.email then postReset cd now (u a.email) else u x).is_available = _
      split
      · next hx => rw [hx, postReset_avail]
      · rfl

/-- `_get_available_account` never changes any availability flag. -/
lemma get_available_account_avail (mp cd : Nat) (now : Int)
    (l : List Account) (u : String → Usage) (x : String) :
    (((get_available_account mp cd now l u).2) x).is_available = (u x).is_available := by
  rw [get_available_account_eq_spec]
  exact next_available_spec_avail mp cd now l u x

/-- The ledger only hands out accounts whose availability flag is set. -/
lemma next_available_spec_some_avail (mp cd : Nat) (now : Int) :
    ∀ (l : List Account) (u : String → Usage) (a : Account) (u' : String → Usage),
      next_available_spec mp cd now l u = (some a, u') → (u a.email).is_available = true := by
  intro l
  induction l with
  | nil =>
    intro u a u' h
    have := congrArg Prod.fst h
    simp [next_available_spec] at this
  | cons a' rest ih =>
    intro u a u' h
    simp only [next_available_spec] at h
    split at h
    · next hcond =>
      have ha : a' = a := by
        have := congrArg Prod.fst h
        simpa using this
      subst ha
      have := hcond.2
      rwa [postReset_avail] at this
    · have := ih _ a u' h
      revert this
      show (if a.email = a'.email then postReset cd now (u a'.email) else u a.email).is_available = true → _
      split
      · next hx => rw [postReset_avail, ← hx]; exact id
      · exact id

/-- `stopCurrent` does not touch the usage map. -/
lemma stopCurrent_usage (s : MState) : (stopCurrent s).usage = s.usage := by
  unfold stopCurrent
  split <;> rfl

/-- Deactivation keeps already-false availability flags false. -/
lemma setUnavailable_false (u : String → Usage) (e x : String)
    (h : (u x).is_available = false) : ((setUnavailable u e) x).is_available = false := by
  unfold setUnavailable
  split
  · rfl
  · exact h

/-- Recording an attempt never changes any availability flag. -/
lemma recordSuccess_avail (u : String → Usage) (e : String) (t : Int) (x : String) :
    ((recordSuccess u e t) x).is_available = (u x).is_available := by
  unfold recordSuccess
  split
  · next hx => rw [hx]
  · rfl

/-- Account deactivation on a failed initialization only behaves like the
source when applied where it applies it; kept-false flags stay false. -/
lemma selectAndInit_avail_false (cfg : MConfig) (env : Env) (i : Nat) (s : MState)
    (x : String) (h : (s.usage x).is_available = false) :
    ((stepState (selectAndInit cfg env i s)).usage x).is_available = false := by
  unfold selectAndInit init_account
  cases hp1 : (get_available_account cfg.max_profiles_per_account cfg.cooldown_minutes
      s.now cfg.accounts s.usage).1 with
  | some a =>
    simp only [hp1]
    cases hio : env.initOutcome i <;>
      simp only [hio, stepState, Bool.false_eq_true, ite_false, ite_true]
    · apply setUnavailable_false
      rw [get_available_account_avail]
      exact h
    · rw [get_available_account_avail]
      exact h
  | none =>
    simp only [hp1]
    cases hp2 : (get_available_account cfg.max_profiles_per_account cfg.cooldown_minutes
        (s.now + (cfg.cooldown_minutes * 60 : Int)) cfg.accounts
        (get_available_account cfg.max_profiles_per_account cfg.cooldown_minutes
          s.now cfg.accounts s.usage).2).1 with
    | none =>
      simp only [hp2, stepState]
      rw [get_available_account_avail, get_available_account_avail]
      exact h
    | some a =>
      simp only [hp2]
      cases hio : env.initOutcome i <;>
        simp only [hio, stepState, Bool.false_eq_true, ite_false, ite_true]
      · apply setUnavailable_false
        rw [get_available_account_avail, get_available_account_avail]
        exact h
      · rw [get_available_account_avail, get_available_account_avail]
        exact h

/-- The full loop-head account acquisition keeps false availability flags
false. -/
lemma acquireAccount_avail_false (cfg : MConfig) (env : Env) (i : Nat) (s : MState)
    (x : String) (h : (s.usage x).is_available = false) :
    ((stepState (acquireAccount cfg env i s)).usage x).is_available = false := by
  unfold acquireAccount
  cases hca : s.current_account with
  | none =>
    simp only [hca]
    exact selectAndInit_avail_false cfg env i s x h
  | some e =>
    simp only [hca]
    by_cases hcap : cfg.max_profiles_per_account ≤ (s.usage e).profiles_scraped
    · rw [if_pos hcap]
      apply selectAndInit_avail_false
      show (((stopCurrent s).usage) x).is_available = false
      rw [stopCurrent_usage]
      exact h
    · rw [if_neg hcap]
      simp only [hca, stepState]
      exact h

/-- Once an account's availability flag is false, no amount of further
coordinator work ever sets it back to true. -/
lemma runLoop_avail_false (cfg : MConfig) (env : Env) :
    ∀ (urls : List String) (i : Nat) (s : MState) (x : String),
      (s.usage x).is_available = false →
      (((runLoop cfg env urls i s).2).usage x).is_available = false := by
  intro urls
  induction urls with
  | nil =>
    intro i s x h
    show (((stopCurrent s).usage) x).is_available = false
    rw [stopCurrent_usage]
    exact h
  | cons url rest ih =>
    intro i s x h
    simp only [runLoop]
    cases hacq : acquireAccount cfg env i s with
    | abortRun s' =>
      have hs' := acquireAccount_avail_false cfg env i s x h
      rw [hacq] at hs'
      simp only [stepState] at hs'
      show (((stopCurrent { s' with aborted := true }).usage) x).is_available = false
      rw [stopCurrent_usage]
      exact hs'
    | skipTarget s' =>
      have hs' := acquireAccount_avail_false cfg env i s x h
      rw [hacq] at hs'
      simp only [stepState] at hs'
      exact ih (i + 1) s' x hs'
    | doScrape s' =>
      have hs' := acquireAccount_avail_false cfg env i s x h
      rw [hacq] at hs'
      simp only [stepState] at hs'
      cases hcur : s'.current_account with
      | some e =>
        simp only [hcur]
        apply ih
        show ((recordSuccess s'.usage e _) x).is_available = false
        rw [recordSuccess_avail]
        exact hs'
      | none =>
        simp only [hcur]
        exact ih _ _ x hs'

/-! ## Claim C4 -/

/-- Claim C4 is false as stated: a security-checkpoint landing and a plain
login failure are NOT distinguished to the caller — `login` returns the very
same value `(False, [])` for both, so the three outcomes collapse to two at
the call site (they differ only in log lines). -/
theorem c4_counterexample :
    login (.landed "https://www.linkedin.com/checkpoint/challenge" []) =
      login (.landed "https://www.linkedin.com/uas/login-submit" []) ∧
    login (.landed "https://www.linkedin.com/checkpoint/challenge" []) = (false, []) := by
  constructor
  · rfl
  · rfl

/-- Claim C4 amended: `login` distinguishes only success from non-success to
its caller — it returns `(True, cookies)` exactly when the landing URL
indicates the authenticated area, and `(False, [])` in every other case,
checkpoint or plain failure alike; and after an account's initialization
fails (credential failure or checkpoint), its availability flag is false and
is never set back to true for the remainder of the run, while the ledger only
ever hands out accounts whose flag is still true — so a failed account is
never retried automatically. -/
theorem c4_amended (cfg : MConfig) (env : Env) :
    (∀ url c, login (.landed url c) =
      (if (strContains url "feed" || strContains url "mynetwork") = true then (true, c)
       else (false, []))) ∧
    (∀ (mp cd : Nat) (now : Int) (l : List Account) (u : String → Usage)
       (a : Account) (u' : String → Usage),
       get_available_account mp cd now l u = (some a, u') →
       (u a.email).is_available = true) ∧
    (∀ (urls : List String) (i : Nat) (s : MState) (x : String),
       (s.usage x).is_available = false →
       (((runLoop cfg env urls i s).2).usage x).is_available = false) := by
  refine ⟨?_, ?_, runLoop_avail_false cfg env⟩
  · intro url c
    simp only [login]
    split
    · rfl
    · split <;> rfl
  · intro mp cd now l u a u' hsel
    rw [get_available_account_eq_spec] at hsel
    exact next_available_spec_some_avail mp cd now l u a u' hsel

/-- Witness for C4 at a concrete input: an account deactivated at the start
of a run is still deactivated after the run. -/
theorem c4_witness :
    (sDeact.usage "a").is_available = false ∧
    (((runLoop cfgA envAllOk ["t1"] 0 sDeact).2).usage "a").is_available = false :=
  ⟨rfl, (c4_amended cfgA envAllOk).2.2 ["t1"] 0 sDeact "a" rfl⟩

/-! ## Lemmas about `stopCurrent` -/

/-- Stopping the current scraper does not change the current account. -/
lemma stopCurrent_current_account (s : MState) :
    (stopCurrent s).current_account = s.current_account := by
  unfold stopCurrent
  split <;> rfl

/-- Stopping the current scraper does not change the driver counter. -/
lemma stopCurrent_driversStarted (s : MState) :
    (stopCurrent s).driversStarted = s.driversStarted := by
  unfold stopCurrent
  split <;> rfl

/-- Stopping the current scraper does not change the clock. -/
lemma stopCurrent_now (s : MState) : (stopCurrent s).now = s.now := by
  unfold stopCurrent
  split <;> rfl

/-- Stopping the current scraper does not change the abort flag. -/
lemma stopCurrent_aborted (s : MState) : (stopCurrent s).aborted = s.aborted := by
  unfold stopCurrent
  split <;> rfl

/-- With no current scraper, the cleanup is a no-op. -/
lemma stopCurrent_of_none (s : MState) (h : s.current_scraper = none) :
    stopCurrent s = s := by
  unfold stopCurrent
  rw [h]

/-! ## Claim C9 -/

/-- Claim C9 is false as stated: when a driver is live at call time (here:
one left behind by a direct `initialize_account` call), `scrape_profiles([])`
does touch the Session Driver — the final cleanup stops it, so a session is
destroyed by the empty-list call. -/
theorem c9_counterexample :
    sLive.stopLog = [] ∧
    (scrape_profiles cfgA envAllOk [] sLive).2.stopLog = [0] :=
  ⟨rfl, rfl⟩

/-- Claim C9 amended: `scrape_profiles([])` returns `[]` and leaves the
Account Ledger unchanged (no account selected, no counter mutated), the
current-account field unchanged and no session created; and provided no
driver is live at call time, the state is entirely untouched — but a live
driver is stopped by the unconditional final cleanup. -/
theorem c9_amended (cfg : MConfig) (env : Env) (s : MState) :
    (scrape_profiles cfg env [] s).1 = [] ∧
    (scrape_profiles cfg env [] s).2.usage = s.usage ∧
    (scrape_profiles cfg env [] s).2.current_account = s.current_account ∧
    (scrape_profiles cfg env [] s).2.driversStarted = s.driversStarted ∧
    (s.current_scraper = none → (scrape_profiles cfg env [] s).2 = { s with aborted := false }) := by
  refine ⟨rfl, ?_, ?_, ?_, ?_⟩
  · show ((stopCurrent { s with aborted := false }).usage) = s.usage
    rw [stopCurrent_usage]
  · show (stopCurrent { s with aborted := false }).current_account = s.current_account
    rw [stopCurrent_current_account]
  · show (stopCurrent { s with aborted := false }).driversStarted = s.driversStarted
    rw [stopCurrent_driversStarted]
  · intro h
    show stopCurrent { s with aborted := false } = { s with aborted := false }
    exact stopCurrent_of_none _ h

/-- Witness for C9 on a freshly constructed coordinator. -/
theorem c9_witness :
    (mkState 0).current_scraper = none ∧
    (scrape_profiles cfgA envAllOk [] (mkState 0)).2 = { (mkState 0) with aborted := false } :=
  ⟨rfl, (c9_amended cfgA envAllOk (mkState 0)).2.2.2.2 rfl⟩

/-! ## Claim C7 -/

/-- Claim C7 is false as stated: in a run whose single scrape FAILS (the
result's success flag is false), the account's `profiles_scraped` counter is
still incremented to 1 — the source increments per attempt, not per
successful scrape. -/
theorem c7_counterexample :
    (scrape_profiles cfgA envScrapeFail ["t1"] (mkState 0)).1.map ScrapeResult.success = [false] ∧
    ((scrape_profiles cfgA envScrapeFail ["t1"] (mkState 0)).2.usage "a").profiles_scraped = 1 :=
  ⟨rfl, rfl⟩

/-- The loop-head account acquisition never reads the scrape outcome. -/
lemma acquireAccount_scrapeSuccess_irrel (cfg : MConfig) (env : Env) (f : Nat → Bool)
    (i : Nat) (s : MState) :
    acquireAccount cfg { env with scrapeSuccess := f } i s = acquireAccount cfg env i s := rfl

/-- The coordinator's final state — ledger included — is independent of
which scrapes succeed: the bookkeeping is per attempt. -/
lemma runLoop_state_scrapeSuccess_irrel (cfg : MConfig) (env : Env) (f : Nat → Bool) :
    ∀ (urls : List String) (i : Nat) (s : MState),
      (runLoop cfg { env with scrapeSuccess := f } urls i s).2 =
        (runLoop cfg env urls i s).2 := by
  intro urls
  induction urls with
  | nil => intro i s; rfl
  | cons url rest ih =>
    intro i s
    simp only [runLoop, acquireAccount_scrapeSuccess_irrel]
    cases hacq : acquireAccount cfg env i s with
    | abortRun s' => rfl
    | skipTarget s' => exact ih (i + 1) s'
    | doScrape s' =>
      simp only
      cases hcur : s'.current_account with
      | some e =>
        simp only [hcur]
        exact ih (i + 1) _
      | none =>
        simp only [hcur]
        exact ih (i + 1) _

/-- Claim C7 amended: recording a scrape attempt increments the account's
`profiles_scraped` by exactly 1 and sets `last_used` to the call time,
leaving every other account's record untouched; but the recording is applied
to every scrape ATTEMPT — the final ledger state does not depend on which
scrapes succeed, so the counter is not incremented only for successful
scrapes. -/
theorem c7_amended (cfg : MConfig) (env : Env) :
    (∀ (u : String → Usage) (e : String) (t : Int),
      (recordSuccess u e t) e =
        { u e with profiles_scraped := (u e).profiles_scraped + 1, last_used := some t } ∧
      (∀ x, x ≠ e → (recordSuccess u e t) x = u x)) ∧
    (∀ (f : Nat → Bool) (urls : List String) (i : Nat) (s : MState),
      (runLoop cfg { env with scrapeSuccess := f } urls i s).2 =
        (runLoop cfg env urls i s).2) := by
  refine ⟨?_, fun f => runLoop_state_scrapeSuccess_irrel cfg env f⟩
  intro u e t
  constructor
  · show (if e = e then _ else u e) = _
    rw [if_pos rfl]
  · intro x hx
    show (if x = e then _ else u x) = u x
    rw [if_neg hx]

/-- Witness for C7: the frame condition at a concrete distinct account. -/
theorem c7_witness :
    ("b" : String) ≠ "a" ∧ (recordSuccess uDeact "a" 5) "b" = uDeact "b" :=
  ⟨by decide, ((c7_amended cfgA envAllOk).1 uDeact "a" 5).2 "b" (by decide)⟩

/-! ## Claim C5 -/

/-- Claim C5 confirmed: when no account is current and the ledger has no
available account, the coordinator sleeps for exactly the configured
cooldown duration (`now` advances by `cooldown_minutes * 60` seconds once)
and retries the selection exactly once; when that single retry also yields
nothing, the run aborts — no result is produced for the current target nor
for any remaining target, however many remain. -/
theorem c5_confirmed (cfg : MConfig) (env : Env) (url : String) (rest : List String)
    (i : Nat) (s : MState)
    (h1 : s.current_account = none)
    (h2 : (get_available_account cfg.max_profiles_per_account cfg.cooldown_minutes
        s.now cfg.accounts s.usage).1 = none)
    (h3 : (get_available_account cfg.max_profiles_per_account cfg.cooldown_minutes
        (s.now + (cfg.cooldown_minutes * 60 : Int)) cfg.accounts
        (get_available_account cfg.max_profiles_per_account cfg.cooldown_minutes
          s.now cfg.accounts s.usage).2).1 = none) :
    (runLoop cfg env (url :: rest) i s).1 = [] ∧
    (runLoop cfg env (url :: rest) i s).2.now =
      s.now + (cfg.cooldown_minutes * 60 : Int) ∧
    (runLoop cfg env (url :: rest) i s).2.aborted = true := by
  have hacq : acquireAccount cfg env i s =
      .abortRun { s with
        usage := (get_available_account cfg.max_profiles_per_account cfg.cooldown_minutes
          (s.now + (cfg.cooldown_minutes * 60 : Int)) cfg.accounts
          (get_available_account cfg.max_profiles_per_account cfg.cooldown_minutes
            s.now cfg.accounts s.usage).2).2,
        now := s.now + (cfg.cooldown_minutes * 60 : Int) } := by
    unfold acquireAccount selectAndInit
    simp only [h1, h2, h3]
  refine ⟨?_, ?_, ?_⟩
  · simp only [runLoop, hacq]
  · simp only [runLoop, hacq]
    rw [stopCurrent_now]
  · simp only [runLoop, hacq]
    rw [stopCurrent_aborted]

/-- Witness for C5: one fully deactivated account, five pending targets. -/
theorem c5_witness :
    sDeact.current_account = none ∧
    (get_available_account cfgA.max_profiles_per_account cfgA.cooldown_minutes
      sDeact.now cfgA.accounts sDeact.usage).1 = none ∧
    (runLoop cfgA envAllOk ["t1", "t2"] 0 sDeact).1 = [] ∧
    (runLoop cfgA envAllOk ["t1", "t2"] 0 sDeact).2.aborted = true := by
  refine ⟨rfl, rfl, ?_, ?_⟩
  · exact (c5_confirmed cfgA envAllOk "t1" ["t2"] 0 sDeact rfl rfl rfl).1
  · exact (c5_confirmed cfgA envAllOk "t1" ["t2"] 0 sDeact rfl rfl rfl).2.2

/-! ## Claim C3 -/

/-- Every extracted experience entry's `is_current` field is determined by
its date range: absent when no date was found, else the `Present` test. -/
lemma mem_extract_experience_is_current (items : List RawExp) (j : Job)
    (h : j ∈ extract_experience items) :
    j.is_current = j.date_range.map (fun d => strContains d "Present") := by
  unfold extract_experience at h
  have h1 := List.mem_of_mem_filter h
  obtain ⟨p, hp, rfl⟩ := List.mem_map.1 h1
  rfl

/-- Claim C3 confirmed: (1) experience entries retain on-page order
end-to-end — for a page of at most 10 items all of which extract a company
or title, the result is exactly the items in page order, each carrying its
page index; (2) `current_company`/`current_designation` are taken from
`experience[0]` exactly when its date range is open-ended — it contains
`Present`, or no date range was found (no end date) — and are left unset
otherwise. -/
theorem c3_confirmed :
    (∀ items : List RawExp, items.length ≤ 10 →
      (∀ it ∈ items, rawIncludable it = true) →
      extract_experience items = items.enum.map (fun p => extract_exp_item p.1 p.2)) ∧
    (∀ (items : List RawExp) (j : Job) (rest : List Job),
      extract_experience items = j :: rest →
      current_from_experience (extract_experience items) =
        (match j.date_range with
         | none => (j.company_name, j.job_title)
         | some d => if strContains d "Present" = true then (j.company_name, j.job_title)
                     else (none, none))) := by
  constructor
  · intro items hlen hinc
    unfold extract_experience
    rw [List.take_of_length_le hlen]
    apply List.filter_eq_self.2
    intro j hj
    obtain ⟨p, hp, rfl⟩ := List.mem_map.1 hj
    have hmem : p.2 ∈ items := List.getElem?_mem (List.mem_enum_iff_getElem?.1 hp)
    have hij : includeJob (extract_exp_item p.1 p.2) = rawIncludable p.2 := rfl
    rw [hij]
    exact hinc p.2 hmem
  · intro items j rest h
    have hmem : j ∈ extract_experience items := by
      rw [h]
      exact List.mem_cons_self j rest
    have hic := mem_extract_experience_is_current items j hmem
    rw [h]
    show (if j.is_current.getD true = true then (j.company_name, j.job_title)
          else (none, none)) = _
    rw [hic]
    cases hd : j.date_range with
    | none => simp
    | some d => simp

/-- Witness for C3 on the concrete page `[A, B, C]` where `A` is an
open-ended current position. -/
theorem c3_witness :
    [rawA, rawB, rawC].length ≤ 10 ∧
    (rawIncludable rawA = true ∧ rawIncludable rawB = true ∧ rawIncludable rawC = true) ∧
    extract_experience [rawA, rawB, rawC] =
      [rawA, rawB, rawC].enum.map (fun p => extract_exp_item p.1 p.2) ∧
    current_from_experience (extract_experience [rawA, rawB, rawC]) =
      (some "Acme", some "Boss") :=
  ⟨by decide, ⟨by decide, by decide, by decide⟩,
   c3_confirmed.1 [rawA, rawB, rawC] (by decide) (by decide),
   by decide⟩

/-! ## Claim C10 -/

/-- Claim C10 confirmed: extraction returns at most 10 experience entries
and at most 5 education entries (further on-page items are silently
truncated); an experience entry is kept only with a truthy company name or
job title and an education entry only with a truthy institution name; the
kept entries' zero-based `order_index` values are strictly increasing page
indices, so a skipped item leaves a gap — as on the concrete page whose
middle item extracts nothing, yielding indices `[0, 2]`. -/
theorem c10_confirmed :
    (∀ items : List RawExp, (extract_experience items).length ≤ 10) ∧
    (∀ (sp : Bool) (items : List RawEdu), (extract_education sp items).length ≤ 5) ∧
    (∀ items : List RawExp, ∀ j ∈ extract_experience items,
      (truthyOpt j.company_name || truthyOpt j.job_title) = true) ∧
    (∀ (sp : Bool) (items : List RawEdu), ∀ e ∈ extract_education sp items,
      truthyOpt e.institution_name = true) ∧
    (∀ items : List RawExp,
      ((extract_experience items).map Job.order_index).Pairwise (· < ·)) ∧
    (extract_experience itemsGap).map Job.order_index = [0, 2] := by
  refine ⟨?_, ?_, ?_, ?_, ?_, by decide⟩
  · intro items
    unfold extract_experience
    calc (((items.take 10).enum.map (fun p => extract_exp_item p.1 p.2)).filter includeJob).length
        ≤ ((items.take 10).enum.map (fun p => extract_exp_item p.1 p.2)).length :=
          List.length_filter_le _ _
      _ = (items.take 10).length := by rw [List.length_map, List.enum_length]
      _ ≤ 10 := by rw [List.length_take]; exact min_le_left _ _
  · intro sp items
    unfold extract_education
    cases sp with
    | false => simp
    | true =>
      simp only [if_true]
      calc (((items.take 5).map extract_edu_item).filter
              (fun e => truthyOpt e.institution_name)).length
          ≤ ((items.take 5).map extract_edu_item).length := List.length_filter_le _ _
        _ = (items.take 5).length := List.length_map _ _
        _ ≤ 5 := by rw [List.length_take]; exact min_le_left _ _
  · intro items j hj
    have hj' : j ∈ ((items.take 10).enum.map
        (fun p => extract_exp_item p.1 p.2)).filter includeJob := hj
    have h2 : includeJob j = true := List.of_mem_filter hj'
    exact h2
  · intro sp items e he
    cases sp with
    | false => simp [extract_education] at he
    | true =>
      have he' : e ∈ ((items.take 5).map extract_edu_item).filter
          (fun e => truthyOpt e.institution_name) := by
        simpa [extract_education] using he
      exact (List.mem_filter.1 he').2
  · intro items
    have hsub : List.Sublist (extract_experience items)
        ((items.take 10).enum.map (fun p => extract_exp_item p.1 p.2)) :=
      List.filter_sublist _
    have hmapsub := hsub.map Job.order_index
    have heq : ((items.take 10).enum.map (fun p => extract_exp_item p.1 p.2)).map Job.order_index
        = List.range (items.take 10).length := by
      rw [List.map_map]
      have hfe : (Job.order_index ∘ fun p : Nat × RawExp => extract_exp_item p.1 p.2)
          = Prod.fst := by
        funext p
        rfl
      rw [hfe, List.enum_map_fst]
    rw [heq] at hmapsub
    exact (List.pairwise_lt_range _).sublist hmapsub

/-- Witness for C10: the first entry of the gap page is kept and satisfies
the inclusion condition. -/
theorem c10_witness :
    (extract_exp_item 0 ⟨some "A", none, none⟩ ∈ extract_experience itemsGap) ∧
    (truthyOpt (extract_exp_item 0 ⟨some "A", none, none⟩).company_name ||
      truthyOpt (extract_exp_item 0 ⟨some "A", none, none⟩).job_title) = true :=
  ⟨by decide, c10_confirmed.2.2.1 itemsGap _ (by decide)⟩

/-! ## Claim C1 -/

/-- A skipped target can only come from a failed account initialization. -/
lemma init_account_skip (env : Env) (i : Nat) (s : MState) (a : Account) (s' : MState)
    (h : init_account env i s a = .skipTarget s') : env.initOutcome i = false := by
  unfold init_account at h
  cases hio : env.initOutcome i
  · rfl
  · simp only [hio, ite_true] at h
    exact StepDecision.noConfusion h

/-- A skipped target can only come from a failed account initialization. -/
lemma selectAndInit_skip (cfg : MConfig) (env : Env) (i : Nat) (s : MState) (s' : MState)
    (h : selectAndInit cfg env i s = .skipTarget s') : env.initOutcome i = false := by
  unfold selectAndInit at h
  cases hp1 : (get_available_account cfg.max_profiles_per_account cfg.cooldown_minutes
      s.now cfg.accounts s.usage).1 with
  | some a =>
    simp only [hp1] at h
    exact init_account_skip env i _ a s' h
  | none =>
    simp only [hp1] at h
    cases hp2 : (get_available_account cfg.max_profiles_per_account cfg.cooldown_minutes
        (s.now + (cfg.cooldown_minutes * 60 : Int)) cfg.accounts
        (get_available_account cfg.max_profiles_per_account cfg.cooldown_minutes
          s.now cfg.accounts s.usage).2).1 with
    | none =>
      simp only [hp2] at h
      exact StepDecision.noConfusion h
    | some a =>
      simp only [hp2] at h
      exact init_account_skip env i _ a s' h

/-- A skipped target can only come from a failed account initialization. -/
lemma acquireAccount_skip (cfg : MConfig) (env : Env) (i : Nat) (s : MState) (s' : MState)
    (h : acquireAccount cfg env i s = .skipTarget s') : env.initOutcome i = false := by
  unfold acquireAccount at h
  cases hca : s.current_account with
  | none =>
    simp only [hca] at h
    exact selectAndInit_skip cfg env i s s' h
  | some e =>
    simp only [hca] at h
    by_cases hcap : cfg.max_profiles_per_account ≤ (s.usage e).profiles_scraped
    · rw [if_pos hcap] at h
      exact selectAndInit_skip cfg env i _ s' h
    · rw [if_neg hcap] at h
      simp only [hca] at h
      exact StepDecision.noConfusion h

/-- The produced results' targets always form an order-preserving
subsequence of the input target list. -/
lemma runLoop_map_sublist (cfg : MConfig) (env : Env) :
    ∀ (urls : List String) (i : Nat) (s : MState),
      List.Sublist ((runLoop cfg env urls i s).1.map (fun r => r.linkedin_url)) urls := by
  intro urls
  induction urls with
  | nil => intro i s; exact List.Sublist.refl []
  | cons url rest ih =>
    intro i s
    simp only [runLoop]
    cases hacq : acquireAccount cfg env i s with
    | abortRun s' => exact List.nil_sublist _
    | skipTarget s' => exact (ih (i + 1) s').cons url
    | doScrape s' =>
      cases hcur : s'.current_account with
      | some e =>
        simp only [hcur, List.map_cons]
        exact List.Sublist.cons_cons url (ih (i + 1) _)
      | none =>
        simp only [hcur, List.map_cons]
        exact List.Sublist.cons_cons url (ih (i + 1) _)

/-- When no account initialization fails, the produced results' targets are
a contiguous head of the input list, the whole list unless the run
aborted. -/
lemma runLoop_take (cfg : MConfig) (env : Env) (hinit : ∀ i, env.initOutcome i = true) :
    ∀ (urls : List String) (i : Nat) (s : MState),
      ∃ k, k ≤ urls.length ∧
        (runLoop cfg env urls i s).1.map (fun r => r.linkedin_url) = urls.take k ∧
        ((runLoop cfg env urls i s).2.aborted = false → k = urls.length) := by
  intro urls
  induction urls with
  | nil => intro i s; exact ⟨0, Nat.le_refl 0, rfl, fun _ => rfl⟩
  | cons url rest ih =>
    intro i s
    simp only [runLoop]
    cases hacq : acquireAccount cfg env i s with
    | abortRun s' =>
      refine ⟨0, Nat.zero_le _, rfl, ?_⟩
      intro habort
      rw [stopCurrent_aborted] at habort
      simp at habort
    | skipTarget s' =>
      exact absurd (hinit i) (by simp [acquireAccount_skip cfg env i s s' hacq])
    | doScrape s' =>
      cases hcur : s'.current_account with
      | some e =>
        simp only [hcur]
        obtain ⟨k, hk, hmap, hab⟩ := ih (i + 1) _
        refine ⟨k + 1, Nat.succ_le_succ hk, ?_, ?_⟩
        · simp only [List.map_cons, List.take_succ_cons]
          rw [hmap]
        · intro hnab
          simp only [List.length_cons]
          rw [hab hnab]
      | none =>
        simp only [hcur]
        obtain ⟨k, hk, hmap, hab⟩ := ih (i + 1) _
        refine ⟨k + 1, Nat.succ_le_succ hk, ?_, ?_⟩
        · simp only [List.map_cons, List.take_succ_cons]
          rw [hmap]
        · intro hnab
          simp only [List.length_cons]
          rw [hab hnab]

/-- Claim C1 is false as stated: with two accounts of which the first fails
to initialize, a run over targets `[t1, t2]` produces exactly one result —
for `t2` — and never reaches the abort break.  So a target (`t1`) got no
result although the run was not ABORTED, and the produced results do not
correspond to any contiguous prefix of the input order (the only length-1
prefix is `[t1]`). -/
theorem c1_counterexample :
    (scrape_profiles cfgAB envInitFail ["t1", "t2"] (mkState 0)).1.map (fun r => r.linkedin_url)
      = ["t2"] ∧
    (scrape_profiles cfgAB envInitFail ["t1", "t2"] (mkState 0)).2.aborted = false ∧
    (["t2"] ≠ List.take 0 ["t1", "t2"] ∧ ["t2"] ≠ List.take 1 ["t1", "t2"] ∧
     ["t2"] ≠ List.take 2 ["t1", "t2"]) :=
  ⟨rfl, rfl, by decide⟩

/-- Claim C1 amended: results always preserve input target order — their
targets form an order-preserving subsequence of the input list — but a
target whose account initialization fails is skipped without a result even
when the run is not aborted; when no initialization fails, the results are a
contiguous prefix of the input, and cover every target unless the run
reached the abort break. -/
theorem c1_amended (cfg : MConfig) (env : Env) (urls : List String) (now0 : Int) :
    List.Sublist
      ((scrape_profiles cfg env urls (mkState now0)).1.map (fun r => r.linkedin_url)) urls ∧
    ((∀ i, env.initOutcome i = true) →
      ∃ k, k ≤ urls.length ∧
        (scrape_profiles cfg env urls (mkState now0)).1.map (fun r => r.linkedin_url)
          = urls.take k ∧
        ((scrape_profiles cfg env urls (mkState now0)).2.aborted = false →
          k = urls.length)) :=
  ⟨runLoop_map_sublist cfg env urls 0 _,
   fun hinit => runLoop_take cfg env hinit urls 0 _⟩

/-- Witness for C1: with no initialization failures and ample capacity,
three targets yield exactly their three results in order. -/
theorem c1_witness :
    envAllOk.initOutcome 0 = true ∧
    (scrape_profiles cfgAB envAllOk ["t1", "t2", "t3"] (mkState 0)).1.map
      (fun r => r.linkedin_url) = ["t1", "t2", "t3"] := by
  refine ⟨rfl, ?_⟩
  obtain ⟨k, hk, hmap, hab⟩ :=
    (c1_amended cfgAB envAllOk ["t1", "t2", "t3"] 0).2 (fun _ => rfl)
  have hkl : k = 3 := hab (by decide)
  rw [hkl] at hmap
  simpa using hmap

/-! ## Claim C6 -/

/-- Under the driver invariant, the final cleanup leaves every started
driver stopped exactly once. -/
lemma stopCurrent_count (s : MState) (hinv : DriverInv s) (d : Nat)
    (hd : d < s.driversStarted) : (stopCurrent s).stopLog.count d = 1 := by
  obtain ⟨h1, h2, h3, h4⟩ := hinv
  unfold stopCurrent
  cases hcs : s.current_scraper with
  | none =>
    have := h1 d hd
    rw [hcs] at this
    simpa using this
  | some d0 =>
    by_cases hdd : d = d0
    · subst hdd
      have := h1 d hd
      rw [hcs] at this
      simp only [if_pos rfl] at this
      simp [List.count_cons_self, this]
    · have := h1 d hd
      rw [hcs] at this
      rw [if_neg (by simpa using fun h => hdd h.symm)] at this
      simp only
      rw [List.count_cons_of_ne (by simpa using hdd)]
      exact this

/-- Under the driver invariant, the cleanup never stops an unallocated
driver id. -/
lemma stopCurrent_count_ge (s : MState) (hinv : DriverInv s) (d : Nat)
    (hd : s.driversStarted ≤ d) : (stopCurrent s).stopLog.count d = 0 := by
  obtain ⟨h1, h2, h3, h4⟩ := hinv
  unfold stopCurrent
  cases hcs : s.current_scraper with
  | none => exact h2 d hd
  | some d0 =>
    have hlt : d0 < s.driversStarted := h3 d0 hcs
    have hne : d ≠ d0 := by omega
    simp only
    rw [List.count_cons_of_ne (by simpa using hne)]
    exact h2 d hd

/-- The account switch (stop current scraper, clear both fields) preserves
the driver invariant. -/
lemma switch_inv (s : MState) (hinv : DriverInv s) :
    DriverInv { stopCurrent s with current_scraper := none, current_account := none } := by
  refine ⟨?_, ?_, ?_, ?_⟩
  · intro d hd
    dsimp only at hd ⊢
    rw [stopCurrent_driversStarted] at hd
    simpa using stopCurrent_count s hinv d hd
  · intro d hd
    dsimp only at hd ⊢
    rw [stopCurrent_driversStarted] at hd
    exact stopCurrent_count_ge s hinv d hd
  · intro d hd
    dsimp only at hd
    exact Option.noConfusion hd
  · intro h
    dsimp only

/-- A successful account initialization from a state with no live scraper
allocates a fresh driver and preserves the invariant. -/
lemma init_account_doScrape_inv (env : Env) (i : Nat) (s : MState) (a : Account) (s' : MState)
    (hcs : s.current_scraper = none) (hinv : DriverInv s)
    (h : init_account env i s a = .doScrape s') : DriverInv s' := by
  obtain ⟨h1, h2, h3, h4⟩ := hinv
  unfold init_account at h
  cases hio : env.initOutcome i
  · simp only [hio, Bool.false_eq_true, ite_false] at h
    exact StepDecision.noConfusion h
  · simp only [hio, ite_true] at h
    cases h
    refine ⟨?_, ?_, ?_, ?_⟩
    · intro d hd
      dsimp only at hd ⊢
      by_cases hds : d = s.driversStarted
      · subst hds
        rw [if_pos rfl]
        exact h2 _ (Nat.le_refl _)
      · rw [if_neg (fun hc => hds (Option.some.inj hc).symm)]
        have hdlt : d < s.driversStarted := by omega
        have := h1 d hdlt
        rw [hcs] at this
        simpa using this
    · intro d hd
      dsimp only at hd ⊢
      exact h2 d (by omega)
    · intro d hd
      dsimp only at hd ⊢
      have := Option.some.inj hd
      omega
    · intro hc
      dsimp only at hc
      exact Option.noConfusion hc

/-- Account initialization never aborts the run. -/
lemma init_account_abort (env : Env) (i : Nat) (s : MState) (a : Account) (s' : MState)
    (h : init_account env i s a = .abortRun s') : False := by
  unfold init_account at h
  cases hio : env.initOutcome i <;>
      simp only [hio, Bool.false_eq_true, ite_false, ite_true] at h <;>
    exact StepDecision.noConfusion h

/-- The selection/initialization block preserves the driver invariant on its
abort and proceed-to-scrape outcomes (a skip outcome leaks the driver — it
is excluded separately when no initialization fails). -/
lemma selectAndInit_inv (cfg : MConfig) (env : Env) (i : Nat) (s : MState)
    (hcs : s.current_scraper = none) (hinv : DriverInv s) :
    (∀ s', selectAndInit cfg env i s = .abortRun s' → DriverInv s') ∧
    (∀ s', selectAndInit cfg env i s = .doScrape s' → DriverInv s') := by
  unfold selectAndInit
  cases hp1 : (get_available_account cfg.max_profiles_per_account cfg.cooldown_minutes
      s.now cfg.accounts s.usage).1 with
  | some a =>
    simp only [hp1]
    constructor
    · intro s' h
      exact absurd h (fun hh => init_account_abort env i _ a s' hh)
    · intro s' h
      refine init_account_doScrape_inv env i _ a s' ?_ ?_ h
      · exact hcs
      · exact hinv
  | none =>
    simp only [hp1]
    cases hp2 : (get_available_account cfg.max_profiles_per_account cfg.cooldown_minutes
        (s.now + (cfg.cooldown_minutes * 60 : Int)) cfg.accounts
        (get_available_account cfg.max_profiles_per_account cfg.cooldown_minutes
          s.now cfg.accounts s.usage).2).1 with
    | none =>
      simp only [hp2]
      constructor
      · intro s' h
        cases h
        exact hinv
      · intro s' h
        exact StepDecision.noConfusion h
    | some a =>
      simp only [hp2]
      constructor
      · intro s' h
        exact absurd h (fun hh => init_account_abort env i _ a s' hh)
      · intro s' h
        refine init_account_doScrape_inv env i _ a s' ?_ ?_ h
        · exact hcs
        · exact hinv

/-- The loop-head account acquisition preserves the driver invariant on its
abort and proceed-to-scrape outcomes. -/
lemma acquireAccount_inv (cfg : MConfig) (env : Env) (i : Nat) (s : MState)
    (hinv : DriverInv s) :
    (∀ s', acquireAccount cfg env i s = .abortRun s' → DriverInv s') ∧
    (∀ s', acquireAccount cfg env i s = .doScrape s' → DriverInv s') := by
  unfold acquireAccount
  cases hca : s.current_account with
  | none =>
    simp only [hca]
    exact selectAndInit_inv cfg env i s (hinv.2.2.2 hca) hinv
  | some e =>
    simp only [hca]
    by_cases hcap : cfg.max_profiles_per_account ≤ (s.usage e).profiles_scraped
    · rw [if_pos hcap]
      exact selectAndInit_inv cfg env i _ rfl (switch_inv s hinv)
    · rw [if_neg hcap]
      simp only [hca]
      constructor
      · intro s' h
        exact StepDecision.noConfusion h
      · intro s' h
        cases h
        exact hinv

/-- The driver invariant only reads the driver bookkeeping fields and
whether an account is current. -/
lemma DriverInv_of_fields (s t : MState)
    (h1 : t.driversStarted = s.driversStarted)
    (h2 : t.stopLog = s.stopLog)
    (h3 : t.current_scraper = s.current_scraper)
    (h4 : t.current_account = none → s.current_account = none)
    (hinv : DriverInv s) : DriverInv t := by
  obtain ⟨g1, g2, g3, g4⟩ := hinv
  refine ⟨?_, ?_, ?_, ?_⟩
  · intro d hd
    rw [h1] at hd
    rw [h2, h3]
    exact g1 d hd
  · intro d hd
    rw [h1] at hd
    rw [h2]
    exact g2 d hd
  · intro d hd
    rw [h3] at hd
    rw [h1]
    exact g3 d hd
  · intro hc
    rw [h3]
    exact g4 (h4 hc)

/-- When no account initialization fails, every driver the run started is
stopped exactly once by the time the run returns. -/
lemma runLoop_stopped_once (cfg : MConfig) (env : Env)
    (hinit : ∀ i, env.initOutcome i = true) :
    ∀ (urls : List String) (i : Nat) (s : MState), DriverInv s →
      ∀ d, d < (runLoop cfg env urls i s).2.driversStarted →
        (runLoop cfg env urls i s).2.stopLog.count d = 1 := by
  intro urls
  induction urls with
  | nil =>
    intro i s hinv d hd
    simp only [runLoop] at hd ⊢
    rw [stopCurrent_driversStarted] at hd
    exact stopCurrent_count s hinv d hd
  | cons url rest ih =>
    intro i s hinv d hd
    simp only [runLoop] at hd ⊢
    cases hacq : acquireAccount cfg env i s with
    | abortRun s' =>
      rw [hacq] at hd
      dsimp only at hd ⊢
      have hinv' : DriverInv s' := (acquireAccount_inv cfg env i s hinv).1 s' hacq
      rw [stopCurrent_driversStarted] at hd
      refine stopCurrent_count _ ?_ d hd
      exact hinv'
    | skipTarget s' =>
      exact absurd (hinit i) (by simp [acquireAccount_skip cfg env i s s' hacq])
    | doScrape s' =>
      have hinv' : DriverInv s' := (acquireAccount_inv cfg env i s hinv).2 s' hacq
      rw [hacq] at hd
      dsimp only at hd ⊢
      cases hcur : s'.current_account with
      | some e =>
        simp only [hcur] at hd ⊢
        refine ih (i + 1) _ ?_ d hd
        refine DriverInv_of_fields s' _ rfl rfl rfl ?_ hinv'
        intro hnone
        exact Option.noConfusion hnone
      | none =>
        simp only [hcur] at hd ⊢
        refine ih (i + 1) _ ?_ d hd
        refine DriverInv_of_fields s' _ rfl rfl rfl ?_ hinv'
        intro _
        exact hcur

/-- A freshly constructed coordinator satisfies the driver invariant. -/
lemma DriverInv_mkState (now0 : Int) : DriverInv (mkState now0) := by
  refine ⟨?_, ?_, ?_, ?_⟩
  · intro d hd
    exact absurd hd (by simp [mkState])
  · intro d _
    simp [mkState]
  · intro d hd
    exact Option.noConfusion hd
  · intro _
    rfl

/-- Claim C6 is false as stated: a failed account initialization leaks its
started driver.  In this run two drivers are started, but driver 0 (whose
account failed to initialize) is never stopped — its id never appears in the
stop log, so "every started driver is stopped exactly once" fails, and
between the second start and the final cleanup two drivers are live at
once. -/
theorem c6_counterexample :
    (scrape_profiles cfgAB envInitFail ["t1", "t2"] (mkState 0)).2.driversStarted = 2 ∧
    (scrape_profiles cfgAB envInitFail ["t1", "t2"] (mkState 0)).2.stopLog.count 0 = 0 :=
  ⟨rfl, rfl⟩

/-- Claim C6 amended: as long as no account initialization fails, the
coordinator holds at most one live driver and, by the time a run started
from a fresh coordinator returns, every driver it started has been stopped
exactly once (at the account switch, at the abort break, or in the final
cleanup); a driver started by a FAILED initialization, however, is leaked
when a later initialization replaces it. -/
theorem c6_amended (cfg : MConfig) (env : Env) (urls : List String) (now0 : Int)
    (hinit : ∀ i, env.initOutcome i = true) :
    ∀ d, d < (scrape_profiles cfg env urls (mkState now0)).2.driversStarted →
      (scrape_profiles cfg env urls (mkState now0)).2.stopLog.count d = 1 := by
  intro d hd
  exact runLoop_stopped_once cfg env hinit urls 0 _ (DriverInv_mkState now0) d hd

/-- Witness for C6: an all-success single-target run starts one driver and
stops it exactly once. -/
theorem c6_witness :
    envAllOk.initOutcome 0 = true ∧
    (scrape_profiles cfgAB envAllOk ["t1"] (mkState 0)).2.driversStarted = 1 ∧
    (scrape_profiles cfgAB envAllOk ["t1"] (mkState 0)).2.stopLog.count 0 = 1 :=
  ⟨rfl, rfl, c6_amended cfgAB envAllOk ["t1"] 0 (fun _ => rfl) 0 (by decide)⟩
